import Mathlib

/-!
Verification of the breast-cancer allele-frequency protocol sources
(encode.py, encrypt.py, circuit.py, decrypt.py, local_analysis.py).

The Python sources are shallowly embedded: pure functions become Lean
functions; `raise` becomes `Except.error`; Python `float` values are
modelled exactly as rationals (ℚ); serialized `pickle` blobs are modelled
by the records they serialize, `pickle.dumps` being a deterministic and
injective function of the record.  String operations are modelled at the
character-list level, which coincides with Python semantics for the
single-character separators used by the sources.
-/

set_option autoImplicit false

/-- Character-level model of Python `str.replace(old, new)` for a
single-character pattern: every occurrence of `a` becomes `b`. -/
def pyCharReplace (a b : Char) (s : String) : String :=
  String.mk (s.data.map (fun c => if c = a then b else c))

/-- Split a character list on a separator character; mirrors Python
`str.split(sep)` for a one-character separator (always at least one
piece, empty pieces kept). -/
def splitChars (sep : Char) : List Char → List (List Char)
  | [] => [[]]
  | c :: rest =>
    let r := splitChars sep rest
    if c = sep then [] :: r
    else
      match r with
      | [] => [[c]]
      | t :: ts => (c :: t) :: ts

/-- Model of Python `str.split(sep)` for a one-character separator. -/
def pySplit (sep : Char) (s : String) : List String :=
  (splitChars sep s.data).map (fun l => String.mk l)

/-- Model of Python `str.strip()`: drop whitespace from both ends. -/
def pyStrip (cs : List Char) : List Char :=
  ((cs.dropWhile Char.isWhitespace).reverse.dropWhile Char.isWhitespace).reverse

/-- Model of Python `str.startswith(p)`. -/
def strStartsWith (s p : String) : Bool :=
  List.isPrefixOf p.data s.data

/-- Digit-run parser used by `pyIntParse`: accumulates a decimal value,
allowing single underscores between digits exactly as Python `int`
does (`1_0` is 10, `1__0`, `_1` and `1_` are rejected). -/
def pyDigitsAux (acc : Nat) : List Char → Option Nat
  | [] => some acc
  | '_' :: rest =>
    match rest with
    | [] => none
    | d :: rest2 =>
      if d.isDigit then pyDigitsAux (acc * 10 + (d.toNat - 48)) rest2 else none
  | c :: rest =>
    if c.isDigit then pyDigitsAux (acc * 10 + (c.toNat - 48)) rest else none

/-- Parse a non-empty run of decimal digits (with Python's underscore
grouping); `none` models a `ValueError`. -/
def pyDigits : List Char → Option Nat
  | [] => none
  | c :: rest => if c.isDigit then pyDigitsAux (c.toNat - 48) rest else none

/-- Model of Python `int(s)` on strings: strip whitespace, optional
sign, decimal digits; `none` models a raised `ValueError`. -/
def pyIntParse (s : String) : Option Int :=
  match pyStrip s.data with
  | '+' :: rest => (pyDigits rest).map (fun n => (n : Int))
  | '-' :: rest => (pyDigits rest).map (fun n => -(n : Int))
  | cs => (pyDigits cs).map (fun n => (n : Int))

/-- The allele tokens of a genotype field: normalize the phased
separator to the unphased one and split, as in
`genotype.replace('|', '/').split('/')` (encode.py). -/
def gtTokens (s : String) : List String :=
  pySplit '/' (pyCharReplace '|' '/' s)

/-- Model of `sum(int(a) for a in alleles)` under exception semantics:
`none` as soon as some element fails to parse. -/
def sumAllelesAux : List String → Option Int
  | [] => some 0
  | a :: rest =>
    match pyIntParse a with
    | none => none
    | some k =>
      match sumAllelesAux rest with
      | none => none
      | some t => some (k + t)

/-- Model of `sum(int(a) for a in alleles if a != '.')` (encode.py). -/
def sumAlleles (alleles : List String) : Option Int :=
  sumAllelesAux (alleles.filter (fun a => decide (a ≠ ".")))

/-- encode.py `_encode_genotype`: sentinel missing tokens map to -1,
otherwise the allele calls are summed; a `ValueError` from `int` is
caught and mapped to -1. -/
def _encode_genotype (genotype : String) : Int :=
  if genotype = "./." ∨ genotype = "." ∨ genotype = ".|." then -1
  else
    match sumAlleles (gtTokens genotype) with
    | some n => n
    | none => -1

/-- One entry of the fixed variant catalog (encode.py `TARGET_VARIANTS`). -/
structure Variant where
  chr : String
  pos : Nat
  ref : String
  alt : String
  gene : String
  variant_id : String
deriving DecidableEq

/-- encode.py `TARGET_VARIANTS`: the two target variants for the
breast-cancer allele-frequency analysis. -/
def TARGET_VARIANTS : List Variant :=
  [{ chr := "17", pos := 43044295, ref := "G", alt := "A",
     gene := "BRCA1", variant_id := "rs80357382" },
   { chr := "13", pos := 32315086, ref := "T", alt := "C",
     gene := "BRCA2", variant_id := "rs80359550" }]

/-- A deserialized public-context dictionary as accessed by encrypt.py:
each field is `Option`-valued because a Python dict may lack the key. -/
structure ContextData where
  scheme : Option String
  poly_modulus_degree : Option Nat
  public_key : Option Unit
deriving DecidableEq

/-- encrypt.py `_validate_public_context`: all three required fields
must be present, the scheme must be on the allow-list, and the
polynomial modulus degree must be a positive power of two
(`degree > 0 and (degree & (degree - 1)) == 0`). -/
def _validate_public_context (c : ContextData) : Bool :=
  match c.scheme, c.poly_modulus_degree, c.public_key with
  | some sch, some deg, some _ =>
    (decide (sch = "BFV") || decide (sch = "CKKS")) &&
      (decide (0 < deg) && decide (Nat.land deg (deg - 1) = 0))
  | _, _, _ => false

/-- The record pickled by encrypt.py `encrypt_data` (the mock
ciphertext); serialized blobs are modelled by the record itself. -/
structure EncryptedResult where
  scheme : String
  encrypted_data : String
  data_count : Nat
  context_id : String
  poly_modulus_degree : Nat
deriving DecidableEq

/-- encrypt.py `encrypt_data`: reads `context_data['scheme']` (a missing
key raises, is caught, and is re-raised as the wrapped exception),
validates the context, and otherwise builds the mock encrypted record.
`Except.error` models the raised `Exception("Failed to encrypt data: ...")`. -/
def encrypt_data (encoded_data : List Int) (context_data : ContextData) :
    Except String EncryptedResult :=
  match context_data.scheme with
  | none => Except.error "Failed to encrypt data: KeyError: scheme"
  | some sch =>
    if _validate_public_context context_data then
      Except.ok
        { scheme := sch
          encrypted_data :=
            "mock_encrypted_" ++ toString encoded_data.length ++ "_values"
          data_count := encoded_data.length
          context_id := "mock_context"
          poly_modulus_degree := context_data.poly_modulus_degree.getD 8192 }
    else Except.error "Failed to encrypt data: Invalid public context"

/-- The protocol-config dictionary as read by circuit.py: only
`config.get('target_variants', [])` is ever consulted. -/
structure ProtocolConfig where
  target_variants : Option (List String)
deriving DecidableEq

/-- The record pickled by circuit.py `execute_computation_circuit`. -/
structure MockResult where
  computation_type : String
  participant_count : Nat
  variant_count : Nat
  encrypted_frequencies : String
deriving DecidableEq

/-- circuit.py `execute_computation_circuit`: builds the mock result
record from the number of datasets and the config's target-variant
count; the ciphertext contents are never read, so the element type of
the dataset list is arbitrary. -/
def execute_computation_circuit {α : Type} (encrypted_datasets : List α)
    (protocol_config : ProtocolConfig) : MockResult :=
  { computation_type := "allele_frequency"
    participant_count := encrypted_datasets.length
    variant_count := (protocol_config.target_variants.getD []).length
    encrypted_frequencies :=
      "mock_encrypted_frequencies_" ++
        toString (protocol_config.target_variants.getD []).length ++
        "_variants" }

/-- Deterministic stand-in for `pickle.dumps` on the mock-result
record: the development relies only on its being a function of the
record, which is all circuit.py's `pickle.dumps(mock_result)`
guarantees byte-wise. -/
def pickle_dumps (r : MockResult) : List Nat :=
  (r.computation_type.data.map Char.toNat) ++
    [r.participant_count, r.variant_count] ++
    (r.encrypted_frequencies.data.map Char.toNat)

/-- circuit.py `execute_computation_circuit` including the final
`pickle.dumps`: the byte-level output of the aggregator. -/
def execute_computation_circuit_bytes {α : Type} (encrypted_datasets : List α)
    (protocol_config : ProtocolConfig) : List Nat :=
  pickle_dumps (execute_computation_circuit encrypted_datasets protocol_config)

/-- The dictionary produced by decrypt.py `decrypt_results`; the mock
float frequencies 0.25 and 0.15 are modelled exactly as rationals. -/
structure DecryptedData where
  computation_type : String
  participant_count : Nat
  variant_frequencies : List ℚ
deriving DecidableEq

/-- decrypt.py `decrypt_results`: deserializes the private context and
the result record, copies the metadata and returns the hard-coded mock
frequencies `[0.25, 0.15]`; the ciphertext payload is never used. -/
def decrypt_results (encrypted_results : MockResult)
    (_private_context : ContextData) : DecryptedData :=
  { computation_type := encrypted_results.computation_type
    participant_count := encrypted_results.participant_count
    variant_frequencies := [1/4, 3/20] }

/-- Model of Python `int()` applied to a float/rational: truncation
toward zero. -/
def pyTruncQ (q : ℚ) : Int :=
  if 0 ≤ q then ⌊q⌋ else -⌊-q⌋

/-- One presentation entry built by decrypt.py `interpret_results`. -/
structure InterpretedVariant where
  gene : String
  variant_id : String
  position : String
  allele_frequency : ℚ
  allele_count : Int
deriving DecidableEq

/-- The presentation record built by decrypt.py `interpret_results`. -/
structure InterpretedResults where
  analysis_type : String
  participant_count : Nat
  variants : List InterpretedVariant
deriving DecidableEq

/-- decrypt.py `interpret_results`: one entry per catalog variant whose
index has a frequency; `allele_count` is
`int(frequencies[i] * participant_count * 2)`. -/
def interpret_results (decrypted_data : DecryptedData) : InterpretedResults :=
  { analysis_type := "Breast Cancer Allele Frequency"
    participant_count := decrypted_data.participant_count
    variants :=
      TARGET_VARIANTS.enum.filterMap (fun p =>
        match decrypted_data.variant_frequencies.get? p.1 with
        | some f =>
          some { gene := p.2.gene
                 variant_id := p.2.variant_id
                 position := p.2.chr ++ ":" ++ toString p.2.pos
                 allele_frequency := f
                 allele_count :=
                   pyTruncQ (f * (decrypted_data.participant_count : ℚ) * 2) }
        | none => none) }

/-- A well-formed public context used by concrete scenarios. -/
def demoContext : ContextData :=
  { scheme := some "BFV", poly_modulus_degree := some 8192,
    public_key := some () }

/-- A protocol config whose catalog has the two target variants. -/
def demoConfig : ProtocolConfig :=
  { target_variants := some ["rs80357382", "rs80359550"] }

/-- The three participant vectors of the spec's end-to-end scenario,
encrypted under the demo context. -/
def demoCiphertexts : List EncryptedResult :=
  ([[1, 0], [2, 1], [0, 0]] : List (List Int)).filterMap
    (fun v => (encrypt_data v demoContext).toOption)

/-- The decrypted mock output for three participants, as fed to
`interpret_results`. -/
def demoDecrypted : DecryptedData :=
  { computation_type := "allele_frequency", participant_count := 3,
    variant_frequencies := [1/4, 3/20] }

/-- The header-search loop of encode.py `validate_vcf_format`:
`for i, line in enumerate(file): if i > 100: break; if
line.startswith('#CHROM'): found = True; break`.  The file is given as
its list of lines (existence of the file is assumed; line terminators
are immaterial to `startswith`). -/
def findHeader : Nat → List String → Bool
  | _, [] => false
  | i, line :: rest =>
    if 100 < i then false
    else if strStartsWith line "#CHROM" then true
    else findHeader (i + 1) rest

/-- encode.py `validate_vcf_format`: `Except.error` models the raised
`ValueError("Invalid VCF format: missing header")`. -/
def validate_vcf_format (lines : List String) : Except String Unit :=
  if findHeader 0 lines then Except.ok ()
  else Except.error "Invalid VCF format: missing header"

/-- The key under which a catalog entry is indexed by encode.py:
`f"{chr}:{pos}:{ref}:{alt}"`. -/
def variantKey (v : Variant) : String :=
  v.chr ++ ":" ++ toString v.pos ++ ":" ++ v.ref ++ ":" ++ v.alt

/-- encode.py `variant_positions`: catalog key to vector index. -/
def variant_positions : List (String × Nat) :=
  TARGET_VARIANTS.enum.map (fun p => (variantKey p.2, p.1))

/-- The loop state of encode.py `encode_vcf`: the sample names seen on
the `#CHROM` header and the variant-major genotype matrix. -/
structure EncodeState where
  sample_names : List String
  encoded_data : List (List Int)
deriving DecidableEq

/-- One iteration of the encode.py `encode_vcf` line loop: `##` lines
are skipped, a `#CHROM` line resets the samples and zero matrix, other
`#` lines are skipped, and a data line with at least 9 fields whose
chrom:pos:ref:alt key is in the catalog writes the encoded genotype of
each sample column (first colon-delimited token) into its row. -/
def processLine (st : EncodeState) (rawLine : String) : EncodeState :=
  let line := String.mk (pyStrip rawLine.data)
  if strStartsWith line "##" then st
  else if strStartsWith line "#CHROM" then
    let names := (pySplit '\t' line).drop 9
    { sample_names := names
      encoded_data :=
        List.replicate TARGET_VARIANTS.length (List.replicate names.length 0) }
  else if strStartsWith line "#" then st
  else
    let fields := pySplit '\t' line
    if fields.length < 9 then st
    else
      let key := fields.getD 0 "" ++ ":" ++ fields.getD 1 "" ++ ":" ++
        fields.getD 3 "" ++ ":" ++ fields.getD 4 ""
      match variant_positions.lookup key with
      | none => st
      | some vidx =>
        let samples := (fields.drop 9).take st.sample_names.length
        let row := st.encoded_data.getD vidx []
        let newRow := samples.enum.foldl
          (fun r p =>
            r.set p.1 (_encode_genotype ((pySplit ':' p.2).headD "")))
          row
        { st with encoded_data := st.encoded_data.set vidx newRow }

/-- encode.py `encode_vcf`: validate, fold the line loop, and flatten
the variant-major matrix.  The file is modelled as its list of lines;
the protocol config is accepted and ignored as in the source. -/
def encode_vcf (lines : List String) (_protocol_config : ProtocolConfig) :
    Except String (List Int) :=
  match validate_vcf_format lines with
  | Except.error e => Except.error e
  | Except.ok _ =>
    Except.ok (lines.foldl processLine ⟨[], []⟩).encoded_data.flatten

/-- local_analysis.py `variant_count = len(TARGET_VARIANTS)`. -/
def variant_count : Nat := TARGET_VARIANTS.length

/-- The body of the frequency loop of local_analysis.py
`analyze_local` on one variant's slice: keep genotypes `>= 0`
(`valid_genotypes`), and divide the dosage sum by `len * 2` only when
that list is non-empty (Python's truthiness of a list), else report
0.0. -/
def localFreqOne (variant_data : List Int) : ℚ :=
  if (variant_data.filter (fun g => decide (0 ≤ g))).isEmpty then 0
  else ((variant_data.filter (fun g => decide (0 ≤ g))).sum : ℚ) /
    (((variant_data.filter (fun g => decide (0 ≤ g))).length : ℚ) * 2)

/-- The frequency loop of local_analysis.py `analyze_local`:
`sample_count = len(encoded_data) // variant_count if variant_count > 0
else 0`, then one frequency per variant from its slice
`encoded_data[i*sample_count:(i+1)*sample_count]`. -/
def localFrequencies (encoded_data : List Int) : List ℚ :=
  (List.range variant_count).map (fun i =>
    localFreqOne ((encoded_data.drop
      (i * (if 0 < variant_count then encoded_data.length / variant_count
        else 0))).take
      (if 0 < variant_count then encoded_data.length / variant_count else 0)))

/-- One presentation entry of local_analysis.py `analyze_local`. -/
structure LocalVariantEntry where
  gene : String
  variant_id : String
  position : String
  allele_frequency : ℚ
  sample_allele_count : Int
deriving DecidableEq

/-- The record returned by local_analysis.py `analyze_local`. -/
structure LocalResults where
  analysis_type : String
  sample_count : Nat
  variants : List LocalVariantEntry
deriving DecidableEq

/-- local_analysis.py `analyze_local`: encode the file, compute the
per-variant frequencies, and format the presentation record. -/
def analyze_local (lines : List String) (protocol_config : ProtocolConfig) :
    Except String LocalResults :=
  match encode_vcf lines protocol_config with
  | Except.error e => Except.error e
  | Except.ok encoded_data =>
    let sample_count :=
      if 0 < variant_count then encoded_data.length / variant_count else 0
    let frequencies := localFrequencies encoded_data
    Except.ok
      { analysis_type := "Local Breast Cancer Allele Frequency"
        sample_count := sample_count
        variants :=
          TARGET_VARIANTS.enum.filterMap (fun p =>
            match frequencies.get? p.1 with
            | some f =>
              some { gene := p.2.gene
                     variant_id := p.2.variant_id
                     position := p.2.chr ++ ":" ++ toString p.2.pos
                     allele_frequency := f
                     sample_allele_count :=
                       pyTruncQ (f * (sample_count : ℚ) * 2) }
            | none => none) }

/-- The claim-side notion of the per-variant slice of the flattened
genotype vector (variant-major layout). -/
def varSlice (encoded : List Int) (i : Nat) : List Int :=
  (encoded.drop (i * (encoded.length / variant_count))).take
    (encoded.length / variant_count)

/-- The claim-side notion of non-missing genotypes: everything except
the missing sentinel -1. -/
def nonMissing (l : List Int) : List Int :=
  l.filter (fun g => decide (g ≠ -1))

instance {ε α : Type} [DecidableEq ε] [DecidableEq α] : DecidableEq (Except ε α) :=
  fun a b =>
    match a, b with
    | Except.ok x, Except.ok y =>
      if h : x = y then isTrue (by rw [h])
      else isFalse (by intro hc; cases hc; exact h rfl)
    | Except.error x, Except.error y =>
      if h : x = y then isTrue (by rw [h])
      else isFalse (by intro hc; cases hc; exact h rfl)
    | Except.ok _, Except.error _ => isFalse (by intro hc; cases hc)
    | Except.error _, Except.ok _ => isFalse (by intro hc; cases hc)

/-- C1: the spec's homomorphic-sum correctness fails on the source: in
the end-to-end scenario (3 participants encoding [1,0], [2,1], [0,0]
under a valid public context, catalog of 2 variants),
aggregate-then-decrypt yields the hard-coded mock frequencies
[0.25, 0.15], not the claimed [0.5, 1/6]: the mock circuit and
decryptor never touch the ciphertext contents. -/
theorem mock_pipeline_fixed_output :
    demoCiphertexts.length = 3 ∧
    (decrypt_results (execute_computation_circuit demoCiphertexts demoConfig)
        demoContext).variant_frequencies = [1/4, 3/20] ∧
    ¬([1/4, 3/20] = ([1/2, 1/6] : List ℚ)) :=
  ⟨by decide, rfl, by norm_num⟩

/-- C4: the source's aggregation never raises on an empty ciphertext
list: `execute_computation_circuit []` returns the mock result with
`participant_count = 0` instead of the EmptyInputError the spec
requires. -/
theorem circuit_empty_input_no_error :
    execute_computation_circuit ([] : List (List Nat)) demoConfig =
      { computation_type := "allele_frequency", participant_count := 0,
        variant_count := 2,
        encrypted_frequencies := "mock_encrypted_frequencies_2_variants" } := by
  decide

/-- C2: for any two encrypted-dataset lists of the same length and the
same protocol config, the aggregator produces identical output bytes:
the result depends only on the dataset count and the config's
target-variant count, never on ciphertext contents. -/
theorem circuit_output_content_independent {α β : Type} (l1 : List α)
    (l2 : List β) (cfg : ProtocolConfig) (h : l1.length = l2.length) :
    execute_computation_circuit_bytes l1 cfg =
      execute_computation_circuit_bytes l2 cfg := by
  simp [execute_computation_circuit_bytes, execute_computation_circuit,
    pickle_dumps, h]

/-- Witness for C2 at two concrete two-element lists of different
element types and contents. -/
theorem circuit_output_content_independent_witness :
    ([0, 1] : List Nat).length = (["a", "b"] : List String).length ∧
    execute_computation_circuit_bytes ([0, 1] : List Nat) demoConfig =
      execute_computation_circuit_bytes (["a", "b"] : List String) demoConfig :=
  ⟨by decide,
    circuit_output_content_independent [0, 1] ["a", "b"] demoConfig (by decide)⟩

/-- C8: aggregation has no ordering dependency: a permutation of the
ciphertext list yields an aggregate that decrypts to the same result
(on the source the aggregate is even byte-identical, because only the
list length is used). -/
theorem aggregate_order_independent {α : Type} (l1 l2 : List α)
    (cfg : ProtocolConfig) (priv : ContextData) (h : l1.Perm l2) :
    decrypt_results (execute_computation_circuit l1 cfg) priv =
      decrypt_results (execute_computation_circuit l2 cfg) priv := by
  simp [decrypt_results, execute_computation_circuit, h.length_eq]

/-- Witness for C8 at a concrete permutation of three ciphertexts. -/
theorem aggregate_order_independent_witness :
    ([1, 2, 3] : List Nat).Perm [3, 1, 2] ∧
    decrypt_results
        (execute_computation_circuit ([1, 2, 3] : List Nat) demoConfig)
        demoContext =
      decrypt_results
        (execute_computation_circuit ([3, 1, 2] : List Nat) demoConfig)
        demoContext :=
  ⟨by decide,
    aggregate_order_independent [1, 2, 3] [3, 1, 2] demoConfig demoContext
      (by decide)⟩

/-- C9: `_encode_genotype` is total: for every input string it returns
an integer, either the allele-call sum when every token parses, or -1
(sentinel or caught `ValueError`); no exception escapes. -/
theorem encode_genotype_total (s : String) :
    _encode_genotype s = -1 ∨
      ∃ k : Int, sumAlleles (gtTokens s) = some k ∧ _encode_genotype s = k := by
  unfold _encode_genotype
  by_cases hs : s = "./." ∨ s = "." ∨ s = ".|."
  · left
    simp [hs]
  · cases h : sumAlleles (gtTokens s) with
    | none => left; simp [hs, h]
    | some k => right; exact ⟨k, rfl, by simp [hs]⟩

/-- Failure propagation of the allele sum: if some element of the list
fails integer parsing, the whole sum models a raised `ValueError`. -/
theorem sumAllelesAux_eq_none {l : List String} {t : String} (ht : t ∈ l)
    (hp : pyIntParse t = none) : sumAllelesAux l = none := by
  induction l with
  | nil => cases ht
  | cons a rest ih =>
    rcases List.mem_cons.mp ht with h | h
    · subst h; simp [sumAllelesAux, hp]
    · cases hpa : pyIntParse a with
      | none => simp [sumAllelesAux, hpa]
      | some k => simp [sumAllelesAux, hpa, ih h]

/-- C3 counterexample: a genotype whose second allele token is "-2" is
not a (small non-negative) integer, yet `_encode_genotype` returns -2,
not -1: Python `int` accepts the sign, so no `ValueError` is caught. -/
theorem encode_genotype_negative_token :
    _encode_genotype "0/-2" = -2 ∧ (-2 : Int) ≠ -1 := by decide

/-- C3 (amended): `_encode_genotype` sums allele calls across both
separator styles ("0/0" to 0, "0/1" to 1, "1/1" to 2, "1|0" to 1), the
sentinel-missing tokens "./.", "." and ".|." yield -1, and any
genotype with an allele token (other than ".") that fails to parse as
a Python integer yields -1 rather than raising. -/
theorem encode_genotype_spec :
    (_encode_genotype "0/0" = 0 ∧ _encode_genotype "0/1" = 1 ∧
      _encode_genotype "1/1" = 2 ∧ _encode_genotype "1|0" = 1 ∧
      _encode_genotype "./." = -1 ∧ _encode_genotype "." = -1 ∧
      _encode_genotype ".|." = -1) ∧
    ∀ s t, t ∈ gtTokens s → t ≠ "." → pyIntParse t = none →
      _encode_genotype s = -1 := by
  refine ⟨by decide, ?_⟩
  intro s t hmem hne hp
  unfold _encode_genotype
  by_cases hs : s = "./." ∨ s = "." ∨ s = ".|."
  · simp [hs]
  · have hnone : sumAlleles (gtTokens s) = none :=
      sumAllelesAux_eq_none
        (List.mem_filter.mpr ⟨hmem, by simpa using hne⟩) hp
    simp [hs, hnone]

/-- Witness for C3 at the concrete genotype "0/x", whose second token
fails integer parsing. -/
theorem encode_genotype_spec_witness :
    ("x" ∈ gtTokens "0/x" ∧ "x" ≠ "." ∧ pyIntParse "x" = none) ∧
    _encode_genotype "0/x" = -1 :=
  ⟨by decide, encode_genotype_spec.2 "0/x" "x" (by decide) (by decide) (by decide)⟩

/-- C5 counterexample: an empty encoded vector is not rejected:
`encrypt_data []` under a well-formed public context succeeds and
produces a mock ciphertext of 0 values. -/
theorem encrypt_data_empty_vector_ok :
    encrypt_data [] demoContext = Except.ok
      { scheme := "BFV", encrypted_data := "mock_encrypted_0_values",
        data_count := 0, context_id := "mock_context",
        poly_modulus_degree := 8192 } := by decide

/-- C5 (amended): `encrypt_data` fails closed, before producing any
ciphertext, whenever the public context lacks encryption capability: a
required field is missing, the scheme identifier is off the allow-list,
or the polynomial modulus degree is not a positive power of two.
(An empty encoded vector is not rejected.) -/
theorem encrypt_data_fails_closed (encoded_data : List Int) (ctx : ContextData)
    (h : ctx.scheme = none ∨ ctx.poly_modulus_degree = none ∨
      ctx.public_key = none ∨
      (∃ s, ctx.scheme = some s ∧ s ≠ "BFV" ∧ s ≠ "CKKS") ∨
      (∃ d, ctx.poly_modulus_degree = some d ∧
        ¬(0 < d ∧ Nat.land d (d - 1) = 0))) :
    ∃ e, encrypt_data encoded_data ctx = Except.error e := by
  obtain ⟨sch, deg, pk⟩ := ctx
  cases sch with
  | none => exact ⟨_, rfl⟩
  | some s =>
    cases hv : _validate_public_context ⟨some s, deg, pk⟩ with
    | false =>
      exact ⟨"Failed to encrypt data: Invalid public context",
        by simp [encrypt_data, hv]⟩
    | true =>
      exfalso
      cases deg with
      | none => simp [_validate_public_context] at hv
      | some d =>
        cases pk with
        | none => simp [_validate_public_context] at hv
        | some u =>
          simp [_validate_public_context] at hv
          rcases h with h | h | h | ⟨s2, hs2, h1, h2⟩ | ⟨d2, hd2, hnp⟩
          · exact Option.noConfusion h
          · exact Option.noConfusion h
          · exact Option.noConfusion h
          · cases Option.some.inj hs2
            rcases hv.1 with h3 | h3
            · exact h1 h3
            · exact h2 h3
          · cases Option.some.inj hd2
            exact hnp ⟨hv.2.1, hv.2.2⟩

/-- Witness for C5 at a concrete context whose scheme "RSA" is off the
allow-list. -/
theorem encrypt_data_fails_closed_witness :
    (∃ s, (⟨some "RSA", some 8192, some ()⟩ : ContextData).scheme = some s ∧
      s ≠ "BFV" ∧ s ≠ "CKKS") ∧
    ∃ e, encrypt_data [1, 0] ⟨some "RSA", some 8192, some ()⟩ = Except.error e :=
  ⟨⟨"RSA", rfl, by decide, by decide⟩,
    encrypt_data_fails_closed [1, 0] _
      (Or.inr (Or.inr (Or.inr (Or.inl ⟨"RSA", rfl, by decide, by decide⟩))))⟩

/-- The header-search loop inspects exactly the lines with index 0
through 100: it succeeds iff one of the first 101 lines starts with
the `#CHROM` marker. -/
theorem findHeader_eq_any (lines : List String) :
    ∀ i, findHeader i lines =
      (lines.take (101 - i)).any (fun l => strStartsWith l "#CHROM") := by
  induction lines with
  | nil => intro i; simp [findHeader]
  | cons l rest ih =>
    intro i
    by_cases hi : 100 < i
    · have h0 : 101 - i = 0 := by omega
      simp [findHeader, hi, h0]
    · have h1 : 101 - i = (101 - (i + 1)) + 1 := by omega
      rw [h1, List.take_succ_cons, List.any_cons]
      cases hl : strStartsWith l "#CHROM" with
      | true => simp [findHeader, hi, hl]
      | false => simp [findHeader, hi, hl, ih (i + 1)]

/-- C6 counterexample: a file whose `#CHROM` header sits on line 101
(index 100), hence outside the first 100 lines, still passes
`validate_vcf_format`: the loop breaks only at index 101. -/
theorem validate_header_line_101 :
    ((List.replicate 100 "x" ++ ["#CHROM"]).take 100).any
        (fun l => strStartsWith l "#CHROM") = false ∧
    validate_vcf_format (List.replicate 100 "x" ++ ["#CHROM"]) =
      Except.ok () := by
  constructor
  · decide
  · decide

/-- C6 (amended): `validate_vcf_format` succeeds iff a line within the
bounded lookahead of the first 101 lines (indices 0 through 100)
starts with `#CHROM`; when no such line exists, both it and
`encode_vcf` fail with the missing-header FormatError. -/
theorem validate_header_window (lines : List String) (cfg : ProtocolConfig) :
    (validate_vcf_format lines = Except.ok () ↔
      (lines.take 101).any (fun l => strStartsWith l "#CHROM") = true) ∧
    ((lines.take 101).any (fun l => strStartsWith l "#CHROM") = false →
      encode_vcf lines cfg = Except.error "Invalid VCF format: missing header") := by
  have hkey := findHeader_eq_any lines 0
  rw [Nat.sub_zero] at hkey
  cases hany : (lines.take 101).any (fun l => strStartsWith l "#CHROM") with
  | true =>
    constructor
    · simp [validate_vcf_format, hkey, hany]
    · intro hfalse; exact Bool.noConfusion hfalse
  | false =>
    have hval : validate_vcf_format lines =
        Except.error "Invalid VCF format: missing header" := by
      simp [validate_vcf_format, hkey, hany]
    constructor
    · simp [hval, hany]
    · intro _
      simp [encode_vcf, hval]

/-- Witness for C6 at a concrete headerless 101-line file. -/
theorem validate_header_window_witness :
    ((List.replicate 101 "x").take 101).any
        (fun l => strStartsWith l "#CHROM") = false ∧
    encode_vcf (List.replicate 101 "x") demoConfig =
      Except.error "Invalid VCF format: missing header" :=
  ⟨by decide,
    (validate_header_window (List.replicate 101 "x") demoConfig).2 (by decide)⟩

/-- C7 counterexample: with the decrypted mock output for 3
participants, the first variant's frequency 0.25 implies
round(0.25 * 3 * 2) = 2, but `interpret_results` reports allele_count
1: the source truncates with `int(...)` instead of rounding. -/
theorem interpret_truncates_not_rounds :
    (interpret_results demoDecrypted).variants.get? 0 =
      some { gene := "BRCA1", variant_id := "rs80357382",
             position := "17:43044295", allele_frequency := 1/4,
             allele_count := 1 } ∧
    round ((1/4 : ℚ) * (3 : ℚ) * 2) = 2 ∧ (1 : Int) ≠ 2 := by
  refine ⟨?_, by norm_num [round_eq], by decide⟩
  simp [interpret_results, demoDecrypted, TARGET_VARIANTS, List.enum,
    List.enumFrom, List.filterMap_cons]
  refine ⟨by decide, ?_⟩
  norm_num [pyTruncQ]

/-- C7 (amended): for every decrypted result and every catalog variant
whose index has an available frequency, `interpret_results` reports
the gene label, chromosome:position, the frequency estimate, and an
allele count equal to the truncation toward zero (Python `int`) of
frequency x participant_count x 2, ploidy fixed at 2 - not the
rounding the spec states. -/
theorem interpret_results_spec (d : DecryptedData) (i : Nat) (v : Variant)
    (f : ℚ) (hv : TARGET_VARIANTS.get? i = some v)
    (hf : d.variant_frequencies.get? i = some f) :
    (interpret_results d).variants.get? i =
      some { gene := v.gene, variant_id := v.variant_id,
             position := v.chr ++ ":" ++ toString v.pos,
             allele_frequency := f,
             allele_count := pyTruncQ (f * (d.participant_count : ℚ) * 2) } := by
  cases i with
  | zero =>
    simp [TARGET_VARIANTS] at hv
    subst hv
    cases hl : d.variant_frequencies with
    | nil => rw [hl] at hf; simp at hf
    | cons a as =>
      rw [hl] at hf
      simp at hf
      subst hf
      simp [interpret_results, TARGET_VARIANTS, List.enum, List.enumFrom,
        List.filterMap_cons, hl]
  | succ j =>
    cases j with
    | zero =>
      simp [TARGET_VARIANTS] at hv
      subst hv
      cases hl : d.variant_frequencies with
      | nil => rw [hl] at hf; simp at hf
      | cons a as =>
        rw [hl] at hf
        simp at hf
        simp [interpret_results, TARGET_VARIANTS, List.enum, List.enumFrom,
          List.filterMap_cons, hl, hf]
    | succ n =>
      exfalso
      simp [TARGET_VARIANTS] at hv

/-- Witness for C7 at the second catalog variant of the decrypted mock
output for 3 participants. -/
theorem interpret_results_spec_witness :
    TARGET_VARIANTS.get? 1 = some
      { chr := "13", pos := 32315086, ref := "T", alt := "C",
        gene := "BRCA2", variant_id := "rs80359550" } ∧
    demoDecrypted.variant_frequencies.get? 1 = some (3/20 : ℚ) ∧
    (interpret_results demoDecrypted).variants.get? 1 =
      some { gene := "BRCA2", variant_id := "rs80359550",
             position := "13" ++ ":" ++ toString (32315086 : Nat),
             allele_frequency := (3/20 : ℚ),
             allele_count :=
               pyTruncQ ((3/20 : ℚ) * ((demoDecrypted.participant_count : Nat) : ℚ) * 2) } :=
  ⟨by decide, rfl,
    interpret_results_spec demoDecrypted 1
      { chr := "13", pos := 32315086, ref := "T", alt := "C",
        gene := "BRCA2", variant_id := "rs80359550" }
      (3/20) (by decide) rfl⟩

/-- On slices whose entries are dosages or the sentinel -1, the
frequency-loop body is the claim's non-missing average: the genotypes
kept by the source's `g >= 0` test are exactly the non-sentinel
ones. -/
theorem localFreqOne_eq (l : List Int) (h : ∀ g ∈ l, -1 ≤ g) :
    localFreqOne l =
      if (nonMissing l).length = 0 then 0
      else ((nonMissing l).sum : ℚ) / (2 * ((nonMissing l).length : ℚ)) := by
  have hfilter : l.filter (fun g => decide (0 ≤ g)) = nonMissing l := by
    unfold nonMissing
    apply List.filter_congr
    intro x hx
    have hge := h x hx
    by_cases h0 : (0 : Int) ≤ x
    · have hne : x ≠ -1 := by omega
      simp [h0, hne]
    · have heq : x = -1 := by omega
      simp [h0, heq]
  unfold localFreqOne
  rw [hfilter]
  by_cases hz : (nonMissing l).length = 0
  · have hnil : nonMissing l = [] := List.length_eq_zero.mp hz
    simp [hnil, hz]
  · have hie : (nonMissing l).isEmpty = false := by
      cases hne : nonMissing l with
      | nil => exact absurd (hne ▸ rfl) hz
      | cons a as => rfl
    simp [hie, hz, mul_comm]

/-- C10: `analyze_local`'s frequency computation excludes missing
genotypes (sentinel -1) from both numerator and denominator: on
genotype vectors whose entries are dosages or the sentinel, the i-th
frequency is the dosage sum of the non-missing genotypes of the i-th
variant slice divided by 2 x their number when that number is
positive (the divisor then being strictly positive, so no division by
zero), and 0 when every genotype of the slice is missing. -/
theorem local_freq_excludes_missing (encoded : List Int)
    (h : ∀ g ∈ encoded, -1 ≤ g) (i : Nat) (hi : i < variant_count) :
    (localFrequencies encoded).get? i =
      some (if (nonMissing (varSlice encoded i)).length = 0 then 0
        else ((nonMissing (varSlice encoded i)).sum : ℚ) /
          (2 * ((nonMissing (varSlice encoded i)).length : ℚ))) ∧
    ((nonMissing (varSlice encoded i)).length ≠ 0 →
      (0 : ℚ) < 2 * ((nonMissing (varSlice encoded i)).length : ℚ)) := by
  constructor
  · unfold localFrequencies
    rw [List.get?_map, List.get?_range hi, Option.map_some']
    refine congrArg some ?_
    have hsc : (if 0 < variant_count then encoded.length / variant_count
        else 0) = encoded.length / variant_count := if_pos (by decide)
    rw [hsc]
    have hslice : (encoded.drop (i * (encoded.length / variant_count))).take
        (encoded.length / variant_count) = varSlice encoded i := rfl
    rw [hslice]
    exact localFreqOne_eq _
      (fun g hg => h g (List.mem_of_mem_drop (List.mem_of_mem_take hg)))
  · intro hne
    have hp : 0 < (nonMissing (varSlice encoded i)).length :=
      Nat.pos_of_ne_zero hne
    have hq : (0 : ℚ) < ((nonMissing (varSlice encoded i)).length : ℚ) := by
      exact_mod_cast hp
    linarith

/-- Witness for C10 at the concrete encoded vector [1, -1, 0, 2]
(variant 0 has genotypes [1, -1], one of them missing). -/
theorem local_freq_excludes_missing_witness :
    (∀ g ∈ ([1, -1, 0, 2] : List Int), -1 ≤ g) ∧ 0 < variant_count ∧
    ((localFrequencies [1, -1, 0, 2]).get? 0 =
      some (if (nonMissing (varSlice [1, -1, 0, 2] 0)).length = 0 then 0
        else ((nonMissing (varSlice [1, -1, 0, 2] 0)).sum : ℚ) /
          (2 * ((nonMissing (varSlice [1, -1, 0, 2] 0)).length : ℚ))) ∧
    ((nonMissing (varSlice [1, -1, 0, 2] 0)).length ≠ 0 →
      (0 : ℚ) < 2 * ((nonMissing (varSlice [1, -1, 0, 2] 0)).length : ℚ))) :=
  ⟨by decide, by decide,
    local_freq_excludes_missing [1, -1, 0, 2] (by decide) 0 (by decide)⟩
